import Mathlib

/-!
Verification of the iai-callgrind benchmark runner (clockworklabs/iai-callgrind).

This file embeds, as executable Lean definitions, the parts of the Rust source
that the checked claims are about:

* `src/iai-callgrind-runner/src/lib.rs` — the original runner: `CallgrindArgs`
  canonicalization, the state-machine callgrind-output parser
  `parse_callgrind_output`, and the old cost model `CallgrindStats::summarize`.
* `src/iai-callgrind-runner/src/runner/callgrind/mod.rs` — the newer runner:
  `PositionsMode`, `CallgrindOutput::parse`, the new `CallgrindStats::summarize`
  and `CallgrindCommand::check_exit`.
* `src/iai-callgrind-runner/src/runner/tool/mod.rs` — `check_exit`.
* `src/iai-callgrind-runner/src/bin_bench.rs` — the `Assistant` hooks and the
  orchestration loop.
* `src/iai-callgrind-runner/src/runner/tool/logfile_parser.rs` — the per-tool
  log-file parser and its pid-sorted result.

Modelling conventions: `u64` values are `Nat` with explicit wrap-around
(`% 2 ^ 64`, the release-mode semantics of Rust integer arithmetic); functions
that can panic or return `Err` are `Option`-valued (`none` = panic/error where
the distinction does not matter, otherwise an explicit `Except`); files are
lists of lines (`List String`).
-/

/-! ## ASCII / string helpers (Rust `str` operations used by the parsers) -/

/-- Rust `char::is_ascii_whitespace`: space, tab, newline, carriage return,
form feed. -/
def asciiWs (c : Char) : Bool :=
  c = ' ' || c = '\t' || c = '\n' || c = '\r' || c = '\x0c'

/-- Rust `str::trim_start` on the ASCII inputs of the callgrind format. -/
def trimStartAscii (cs : List Char) : List Char :=
  cs.dropWhile asciiWs

/-- Rust `str::trim` on ASCII input: drop whitespace on both ends. -/
def trimAscii (cs : List Char) : List Char :=
  ((cs.dropWhile asciiWs).reverse.dropWhile asciiWs).reverse

/-- Rust `line.trim().is_empty()`: true iff the line is all whitespace. -/
def isBlankLine (s : String) : Bool :=
  s.data.all asciiWs

/-- Boolean prefix test on character lists (Rust `str::starts_with` with a
string pattern). -/
def listStartsWith : List Char → List Char → Bool
  | _, [] => true
  | [], _ :: _ => false
  | c :: cs, p :: ps => c = p && listStartsWith cs ps

/-- Boolean suffix test on character lists (Rust `str::ends_with`). -/
def listEndsWith (cs suffixChars : List Char) : Bool :=
  listStartsWith cs.reverse suffixChars.reverse

/-- Rust `line.starts_with(|c: char| c.is_ascii_digit())`. -/
def startsWithDigit : List Char → Bool
  | [] => false
  | c :: _ => c.isDigit

/-- Accumulator for `splitAsciiWs`. -/
def splitAsciiWsAux : List Char → List Char → List (List Char)
  | [], acc => match acc with
    | [] => []
    | _ => [acc.reverse]
  | c :: cs, acc =>
    if asciiWs c then
      match acc with
      | [] => splitAsciiWsAux cs []
      | _ => acc.reverse :: splitAsciiWsAux cs []
    else
      splitAsciiWsAux cs (c :: acc)

/-- Rust `str::split_ascii_whitespace`: the maximal non-whitespace runs. -/
def splitAsciiWs (cs : List Char) : List (List Char) :=
  splitAsciiWsAux cs []

/-- Numeric value of a list of decimal digits. -/
def digitsVal (cs : List Char) : Nat :=
  cs.foldl (fun a c => 10 * a + (c.toNat - 48)) 0

/-- The modulus of `u64` arithmetic. -/
def U64 : Nat := 18446744073709551616

/-- Rust `str::parse::<u64>()`: an optional leading `+` sign followed by one or
more ASCII digits, rejecting values outside the `u64` range. -/
def parseU64 (token : List Char) : Option Nat :=
  let t := match token with
    | '+' :: r => r
    | _ => token
  if t.isEmpty then none
  else if t.all Char.isDigit then
    let v := digitsVal t
    if v < U64 then some v else none
  else none

/-! ## u64 arithmetic (wrap-around, the release-mode Rust semantics) -/

/-- Wrapping `u64` addition. -/
def add64 (a b : Nat) : Nat := (a + b) % U64

/-- Wrapping `u64` subtraction. -/
def sub64 (a b : Nat) : Nat := (a % U64 + (U64 - b % U64)) % U64

/-- Wrapping `u64` multiplication. -/
def mul64 (a b : Nat) : Nat := (a * b) % U64

theorem add64_eq {a b : Nat} (h : a + b < U64) : add64 a b = a + b := by
  simpa [add64] using Nat.mod_eq_of_lt h

theorem sub64_eq {a b : Nat} (hba : b ≤ a) (ha : a < U64) : sub64 a b = a - b := by
  unfold sub64 U64 at *
  omega

theorem mul64_eq {a b : Nat} (h : a * b < U64) : mul64 a b = a * b := by
  simpa [mul64] using Nat.mod_eq_of_lt h

theorem add64_lt (a b : Nat) : add64 a b < U64 :=
  Nat.mod_lt _ (by decide)

theorem sub64_lt (a b : Nat) : sub64 a b < U64 :=
  Nat.mod_lt _ (by decide)

theorem mul64_lt (a b : Nat) : mul64 a b < U64 :=
  Nat.mod_lt _ (by decide)

/-! ## CallgrindStats and the two cost models

The counter record produced by the parsers.  Field names follow
`src/iai-callgrind-runner/src/runner/callgrind/mod.rs` (the `lib.rs` variant
names the first field `l1_instructions_cache_reads` and the seventh
`l3_instructions_cache_misses`; the shape and meaning are identical, so one
structure serves both embeddings). -/

structure CallgrindStats where
  /-- Ir: equals the number of instructions executed -/
  instructions_executed : Nat
  /-- I1mr: I1 cache read misses -/
  l1_instructions_cache_read_misses : Nat
  /-- ILmr: LL cache instruction read misses -/
  l3_instructions_cache_read_misses : Nat
  /-- Dr: Memory reads -/
  total_data_cache_reads : Nat
  /-- D1mr: D1 cache read misses -/
  l1_data_cache_read_misses : Nat
  /-- DLmr: LL cache data read misses -/
  l3_data_cache_read_misses : Nat
  /-- Dw: Memory writes -/
  total_data_cache_writes : Nat
  /-- D1mw: D1 cache write misses -/
  l1_data_cache_write_misses : Nat
  /-- DLmw: LL cache data write misses -/
  l3_data_cache_write_misses : Nat
deriving DecidableEq, Repr

/-- The all-zero counter record. -/
def zeroStats : CallgrindStats :=
  ⟨0, 0, 0, 0, 0, 0, 0, 0, 0⟩

/-- Summary derived by `CallgrindStats::summarize` in
`runner/callgrind/mod.rs` (the "new" cost model). -/
structure CallgrindSummary where
  instructions : Nat
  l1_hits : Nat
  l3_hits : Nat
  ram_hits : Nat
  total_memory_rw : Nat
  cycles : Nat
deriving DecidableEq, Repr

/-- Embedding of `CallgrindStats::summarize` from
`src/iai-callgrind-runner/src/runner/callgrind/mod.rs` (lines 680-705). -/
def CallgrindStats.summarize (s : CallgrindStats) : CallgrindSummary :=
  let ram_hits := add64 (add64 s.l3_instructions_cache_read_misses
      s.l3_data_cache_read_misses) s.l3_data_cache_write_misses
  let l1_data_accesses := add64 s.l1_data_cache_read_misses s.l1_data_cache_write_misses
  let l1_miss := add64 s.l1_instructions_cache_read_misses l1_data_accesses
  let l3_accesses := l1_miss
  let l3_hits := sub64 l3_accesses ram_hits
  let total_memory_rw := add64 (add64 s.instructions_executed
      s.total_data_cache_reads) s.total_data_cache_writes
  let l1_hits := sub64 (sub64 total_memory_rw ram_hits) l3_hits
  let cycles := add64 (add64 l1_hits (mul64 5 l3_hits)) (mul64 35 ram_hits)
  { instructions := s.instructions_executed
    l1_hits := l1_hits
    l3_hits := l3_hits
    ram_hits := ram_hits
    total_memory_rw := total_memory_rw
    cycles := cycles }

/-- Summary derived by the older `CallgrindStats::summarize` in `lib.rs`
(the "old" cost model, with a separate `l1_data_hits` field). -/
structure CallgrindSummaryLib where
  l1_instructions : Nat
  l1_data_hits : Nat
  l3_hits : Nat
  ram_hits : Nat
  total_memory_rw : Nat
  cycles : Nat
deriving DecidableEq, Repr

/-- Embedding of `CallgrindStats::summarize` from
`src/iai-callgrind-runner/src/lib.rs` (lines 457-488).  The `assert!` on
`total_memory_rw` is modelled by returning `none` when it fails. -/
def CallgrindStats.summarizeLib (s : CallgrindStats) : Option CallgrindSummaryLib :=
  let ram_hits := add64 (add64 s.l3_instructions_cache_read_misses
      s.l3_data_cache_read_misses) s.l3_data_cache_write_misses
  let l1_data_accesses := add64 s.l1_data_cache_read_misses s.l1_data_cache_write_misses
  let l1_miss := add64 s.l1_instructions_cache_read_misses l1_data_accesses
  let l3_accesses := l1_miss
  let l3_hits := sub64 l3_accesses ram_hits
  let total_memory_rw := add64 (add64 s.instructions_executed
      s.total_data_cache_reads) s.total_data_cache_writes
  let l1_data_hits := sub64 (sub64 total_memory_rw s.instructions_executed)
      (add64 ram_hits l3_hits)
  if total_memory_rw =
      add64 (add64 (add64 l1_data_hits s.instructions_executed) l3_hits) ram_hits then
    let cycles := add64 (add64 (add64 s.instructions_executed l1_data_hits)
        (mul64 5 l3_hits)) (mul64 35 ram_hits)
    some { l1_instructions := s.instructions_executed
           l1_data_hits := l1_data_hits
           l3_hits := l3_hits
           ram_hits := ram_hits
           total_memory_rw := total_memory_rw
           cycles := cycles }
  else
    none

/-! ## Exit-status reconciliation (`check_exit`)

`Output` models `std::process::Output`: `status_code = none` models a child
terminated by a signal (`ExitStatus::code()` returns `None` there). -/

structure Output where
  status_code : Option Int
  stdout : String
  stderr : String
deriving DecidableEq, Repr

/-- The `ExitWith` policy from the `iai-callgrind` api. -/
inductive ExitWith where
  | Success : ExitWith
  | Failure : ExitWith
  | Code : Int → ExitWith
deriving DecidableEq, Repr

/-- Error value of `runner/tool/mod.rs`; `ProcessError` carries the captured
`Output` (the tool id and log path it also carries are irrelevant here). -/
inductive ToolError where
  | ProcessError : Output → ToolError
deriving DecidableEq, Repr

/-- Embedding of `check_exit` from
`src/iai-callgrind-runner/src/runner/tool/mod.rs` (lines 573-630). -/
def check_exit (output : Output) (exit_with : Option ExitWith) : Except ToolError Output :=
  match output.status_code with
  | none => .error (.ProcessError output)
  | some status_code =>
    if status_code = 0 then
      match exit_with with
      | none => .ok output
      | some .Success => .ok output
      | some (.Code code) =>
        if code = 0 then .ok output else .error (.ProcessError output)
      | some .Failure => .error (.ProcessError output)
    else
      match exit_with with
      | some .Failure => .ok output
      | some .Success => .error (.ProcessError output)
      | some (.Code expected_code) =>
        if status_code = expected_code then .ok output
        else .error (.ProcessError output)
      | none => .error (.ProcessError output)

/-- Embedding of `CallgrindCommand::check_exit` from
`src/iai-callgrind-runner/src/runner/callgrind/mod.rs` (lines 208-255).  The
source calls `output.status.code().unwrap()`, which panics when the child was
terminated by a signal; the panic is modelled as the outer `none`.  `Err`
carries the `Output` (the `BenchmarkLaunchError` payload), `Ok` carries
`(stdout, stderr)`. -/
def CallgrindCommand.check_exit (output : Output) (exit_with : Option ExitWith) :
    Option (Except Output (String × String)) :=
  match output.status_code with
  | none => none
  | some code =>
    if code = 0 then
      match exit_with with
      | none => some (.ok (output.stdout, output.stderr))
      | some .Success => some (.ok (output.stdout, output.stderr))
      | some (.Code c) =>
        if c = 0 then some (.ok (output.stdout, output.stderr))
        else some (.error output)
      | some .Failure => some (.error output)
    else
      match exit_with with
      | some .Failure => some (.ok (output.stdout, output.stderr))
      | some .Success => some (.error output)
      | some (.Code expected_code) =>
        if code = expected_code then some (.ok (output.stdout, output.stderr))
        else some (.error output)
      | none => some (.error output)

/-- The exit-status policy as the spec states it: `check_exit` succeeds iff
the observed code satisfies the `exit_with` policy. -/
def exitOk (c : Int) (exit_with : Option ExitWith) : Prop :=
  (exit_with = none ∧ c = 0) ∨
  (exit_with = some .Success ∧ c = 0) ∨
  (exit_with = some (.Code c)) ∨
  (exit_with = some .Failure ∧ c ≠ 0)

instance (c : Int) (p : Option ExitWith) : Decidable (exitOk c p) := by
  unfold exitOk
  infer_instance

/-! ## CallgrindArgs canonicalization (`lib.rs`) -/

/-- The canonicalized callgrind argument set of `lib.rs` (lines 118-150). -/
structure CallgrindArgs where
  i1 : String
  d1 : String
  ll : String
  cache_sim : String
  collect_atstart : String
  other : List String
  toggle_collect : Option (List String)
  compress_strings : String
  compress_pos : String
  callgrind_out_file : Option String
deriving DecidableEq, Repr

/-- The `Default` impl for `CallgrindArgs` in `lib.rs` (lines 132-150). -/
def callgrindArgsDefault : CallgrindArgs :=
  { i1 := "--I1=32768,8,64"
    d1 := "--D1=32768,8,64"
    ll := "--LL=8388608,16,64"
    cache_sim := "--cache-sim=yes"
    collect_atstart := "--collect-atstart=no"
    toggle_collect := none
    compress_pos := "--compress-pos=no"
    compress_strings := "--compress-strings=no"
    callgrind_out_file := none
    other := [] }

/-- One loop iteration of `CallgrindArgs::from_args` (the `if`/`else if`
chain over a single argument; the two `warn!`-and-discard branches are
no-ops).  `starts_with` is the same character-level prefix test
(`listStartsWith`) the parser embeddings use. -/
def fromArgsStep (acc : CallgrindArgs) (arg : String) : CallgrindArgs :=
  if listStartsWith arg.data "--I1=".data then { acc with i1 := arg }
  else if listStartsWith arg.data "--D1=".data then { acc with d1 := arg }
  else if listStartsWith arg.data "--LL=".data then { acc with ll := arg }
  else if listStartsWith arg.data "--cache-sim=".data then acc
  else if listStartsWith arg.data "--collect-atstart=".data then
    { acc with collect_atstart := arg }
  else if listStartsWith arg.data "--compress-strings=".data then
    { acc with compress_strings := arg }
  else if listStartsWith arg.data "--compress-pos=".data then
    { acc with compress_pos := arg }
  else if listStartsWith arg.data "--toggle-collect=".data then
    match acc.toggle_collect with
    | some toggle_arg => { acc with toggle_collect := some (toggle_arg ++ [arg]) }
    | none => { acc with toggle_collect := some [arg] }
  else if listStartsWith arg.data "--callgrind-out-file=".data then acc
  else { acc with other := acc.other ++ [arg] }

/-- Embedding of `CallgrindArgs::from_args` from `lib.rs` (lines 152-190). -/
def CallgrindArgs.from_args (args : List String) : CallgrindArgs :=
  args.foldl fromArgsStep callgrindArgsDefault

/-! ## The callgrind output parsers

Both parsers accumulate into nine `u64` counters
(Ir Dr Dw I1mr D1mr D1mw ILmr DLmr DLmw), here a `List Nat` of length 9. -/

/-- Columnwise accumulation `counters[index] += counter` for the parsed
values of one cost line (which number at most 9 after `take(9)`). -/
def addCounters : List Nat → List Nat → List Nat
  | cs, [] => cs
  | [], _ => []
  | c :: cs, v :: vs => add64 c v :: addCounters cs vs

/-- The initial counter array `[0u64; 9]`. -/
def counters0 : List Nat := [0, 0, 0, 0, 0, 0, 0, 0, 0]

/-- Packaging the counter array into `CallgrindStats`, matching the struct
construction at the end of both parsers. -/
def statsOfCounters (c : List Nat) : CallgrindStats :=
  { instructions_executed := c.getD 0 0
    total_data_cache_reads := c.getD 1 0
    total_data_cache_writes := c.getD 2 0
    l1_instructions_cache_read_misses := c.getD 3 0
    l1_data_cache_read_misses := c.getD 4 0
    l1_data_cache_write_misses := c.getD 5 0
    l3_instructions_cache_read_misses := c.getD 6 0
    l3_data_cache_read_misses := c.getD 7 0
    l3_data_cache_write_misses := c.getD 8 0 }

/-- The counter values of one cost line: split on ASCII whitespace, skip the
first `skipCols` position columns, parse at most 9 values as `u64` (parse
failure panics, hence `none`).  Tokens beyond the first 9 parsed ones are
never parsed, mirroring the lazy `skip(..).map(parse).take(9)` chain. -/
def costLineValues (skipCols : Nat) (line : List Char) : Option (List Nat) :=
  (((splitAsciiWs line).drop skipCols).take 9).mapM parseU64

/-- Parser state of `parse_callgrind_output` in `lib.rs`: the three flag
booleans plus the counter array. -/
structure LibParseState where
  counters : List Nat
  start_record : Bool
  maybe_counting : Bool
  start_counting : Bool
deriving DecidableEq, Repr

/-- One iteration of the `for line in iter` loop of `parse_callgrind_output`
(`lib.rs` lines 363-421).  `sentinel` is the full `fn=<module>::<function>`
string; `benchFile` is the path the `fl=` lines are matched against. -/
def libStep (sentinel benchFile : List Char) (st : LibParseState) (rawLine : String) :
    Option LibParseState :=
  let line := trimStartAscii rawLine.data
  let st := if line.isEmpty then
      { st with start_record := false, maybe_counting := false, start_counting := false }
    else st
  if !st.start_record then
    if listStartsWith line "fl=".data && listEndsWith line benchFile then some st
    else if listStartsWith line sentinel then some { st with start_record := true }
    else some st
  else if !st.maybe_counting then
    if listStartsWith line "cfn=".data then some { st with maybe_counting := true }
    else some st
  else if !st.start_counting then
    if listStartsWith line "calls".data then some { st with start_counting := true }
    else some st
  else if startsWithDigit line then
    -- skip the first number which is just the line number
    match costLineValues 1 line with
    | some vals => some { st with counters := addCounters st.counters vals }
    | none => none
  else if listStartsWith line "cfn=".data then some { st with start_counting := false }
  else some { st with maybe_counting := false, start_counting := false }

/-- The whole line loop of `parse_callgrind_output`. -/
def libLoop (sentinel benchFile : List Char) : List String → LibParseState →
    Option LibParseState
  | [], st => some st
  | l :: ls, st =>
    match libStep sentinel benchFile st l with
    | some st' => libLoop sentinel benchFile ls st'
    | none => none

/-- Embedding of `parse_callgrind_output` from
`src/iai-callgrind-runner/src/lib.rs` (lines 327-434).  The file is a list of
lines; the header probe consumes lines up to and including the first
non-blank one (panicking — `none` — on an all-blank file; the
"callgrind format" test only warns and has no effect on the result). -/
def parse_callgrind_output (file : List String) (bench_file module function_name : String) :
    Option CallgrindStats :=
  let sentinel := "fn=" ++ module ++ "::" ++ function_name
  match file.dropWhile isBlankLine with
  | [] => none
  | _format_line :: rest =>
    (libLoop sentinel.data bench_file.data rest
        ⟨counters0, false, false, false⟩).map fun st => statsOfCounters st.counters

/-! ## The newer parser (`runner/callgrind/mod.rs`) -/

/-- The `positions:` header modes (`runner/callgrind/mod.rs` lines 393-398). -/
inductive PositionsMode where
  | Instr : PositionsMode
  | Line : PositionsMode
  | InstrLine : PositionsMode
deriving DecidableEq, Repr

/-- Embedding of `PositionsMode::from_positions_line`
(`runner/callgrind/mod.rs` lines 400-409). -/
def PositionsMode.from_positions_line (line : String) : Option PositionsMode :=
  let t := trimAscii line.data
  if listStartsWith t "positions: ".data then
    let rest := t.drop "positions: ".length
    if rest = "instr line".data || rest = "line instr".data then some .InstrLine
    else if rest = "instr".data then some .Instr
    else if rest = "line".data then some .Line
    else none
  else none

/-- The sentinel anchor (`runner/callgrind/mod.rs` lines 342-379). -/
structure Sentinel where
  value : String
deriving DecidableEq, Repr

/-- `Sentinel::to_fn`: the `fn=<sentinel>` line prefix the parser scans for. -/
def Sentinel.to_fn (s : Sentinel) : String :=
  "fn=" ++ s.value

/-- Parser state of `CallgrindOutput::parse`: one flag plus the counters. -/
structure ModParseState where
  counters : List Nat
  start_record : Bool
deriving DecidableEq, Repr

/-- One iteration of the `for line in iter` loop of `CallgrindOutput::parse`
(`runner/callgrind/mod.rs` lines 587-626).  In `InstrLine` mode two position
columns are skipped, otherwise one. -/
def modStep (sentinelFn benchFile : List Char) (mode : PositionsMode)
    (st : ModParseState) (rawLine : String) : Option ModParseState :=
  let line := trimStartAscii rawLine.data
  let st := if line.isEmpty then { st with start_record := false } else st
  if !st.start_record then
    if listStartsWith line "fl=".data && listEndsWith line benchFile then some st
    else if listStartsWith line sentinelFn then some { st with start_record := true }
    else some st
  else if startsWithDigit line then
    match costLineValues (if mode = PositionsMode.InstrLine then 2 else 1) line with
    | some vals => some { st with counters := addCounters st.counters vals }
    | none => none
  else some st

/-- The whole line loop of `CallgrindOutput::parse`. -/
def modLoop (sentinelFn benchFile : List Char) (mode : PositionsMode) :
    List String → ModParseState → Option ModParseState
  | [], st => some st
  | l :: ls, st =>
    match modStep sentinelFn benchFile mode st l with
    | some st' => modLoop sentinelFn benchFile mode ls st'
    | none => none

/-- The `iter.find_map(PositionsMode::from_positions_line)` probe: the mode of
the first line declaring one, together with the lines after it. -/
def findPositionsMode : List String → Option (PositionsMode × List String)
  | [] => none
  | l :: ls =>
    match PositionsMode.from_positions_line l with
    | some mode => some (mode, ls)
    | none => findPositionsMode ls

/-- Embedding of `CallgrindOutput::parse` from
`src/iai-callgrind-runner/src/runner/callgrind/mod.rs` (lines 549-639).
Header handling: skip to the first non-blank line (panic if none), then scan
for the `positions:` declaration (panic if absent). -/
def CallgrindOutput.parse (file : List String) (bench_file : String) (sentinel : Sentinel) :
    Option CallgrindStats :=
  match file.dropWhile isBlankLine with
  | [] => none
  | _format_line :: rest =>
    match findPositionsMode rest with
    | none => none
    | some (mode, body) =>
      (modLoop sentinel.to_fn.data bench_file.data mode body
          ⟨counters0, false⟩).map fun st => statsOfCounters st.counters

/-- The example record of spec §8 scenario 2 (also the basis of claim C1). -/
def exampleFileC1 : List String :=
  ["# callgrind format",
   "events: Ir Dr Dw",
   "positions: line",
   "fn=my_mod::bench_a",
   "12 4 1 0",
   "cfn=my_mod::inner",
   "calls=1 12",
   "14 100 20 5"]

/-! ## Claim C1 — which cost lines are aggregated -/

/-- C1 counterexample: on the claim's own example record, the parser
`CallgrindOutput::parse` of `runner/callgrind/mod.rs` (one of the two parsers
the claim covers) does NOT discard the sentinel's own cost line `12 4 1 0`:
it aggregates every cost line after `fn=<sentinel>`, producing
`Ir = 104, Dr = 21, Dw = 5` instead of the claimed `Ir = 100, Dr = 20,
Dw = 5`. -/
theorem callgrind_output_parse_counts_sentinel_line :
    CallgrindOutput.parse exampleFileC1 "bench.rs" ⟨"my_mod::bench_a"⟩ =
      some { instructions_executed := 104
             total_data_cache_reads := 21
             total_data_cache_writes := 5
             l1_instructions_cache_read_misses := 0
             l1_data_cache_read_misses := 0
             l1_data_cache_write_misses := 0
             l3_instructions_cache_read_misses := 0
             l3_data_cache_read_misses := 0
             l3_data_cache_write_misses := 0 } ∧
    (CallgrindOutput.parse exampleFileC1 "bench.rs" ⟨"my_mod::bench_a"⟩).map
      CallgrindStats.instructions_executed ≠ some 100 := by
  decide

/-- C1 amended: the state-machine parser `parse_callgrind_output` of `lib.rs`
discards the sentinel's own cost lines and aggregates only the cost lines
that follow a `cfn=` line and its `calls=` line — on the claim's example it
yields exactly `Ir = 100, Dr = 20, Dw = 5`; whereas `CallgrindOutput::parse`
of `runner/callgrind/mod.rs` aggregates every cost line of the sentinel's
record, including the sentinel's own `12 4 1 0`, yielding
`Ir = 104, Dr = 21, Dw = 5`. -/
theorem parse_sentinel_costs_discarded :
    parse_callgrind_output exampleFileC1 "bench.rs" "my_mod" "bench_a" =
      some { instructions_executed := 100
             total_data_cache_reads := 20
             total_data_cache_writes := 5
             l1_instructions_cache_read_misses := 0
             l1_data_cache_read_misses := 0
             l1_data_cache_write_misses := 0
             l3_instructions_cache_read_misses := 0
             l3_data_cache_read_misses := 0
             l3_data_cache_write_misses := 0 } ∧
    CallgrindOutput.parse exampleFileC1 "bench.rs" ⟨"my_mod::bench_a"⟩ =
      some { instructions_executed := 104
             total_data_cache_reads := 21
             total_data_cache_writes := 5
             l1_instructions_cache_read_misses := 0
             l1_data_cache_read_misses := 0
             l1_data_cache_write_misses := 0
             l3_instructions_cache_read_misses := 0
             l3_data_cache_read_misses := 0
             l3_data_cache_write_misses := 0 } := by
  decide

/-! ## Claim C6 — position-column skipping and missing counters -/

/-- The spec's `positions: instr line` scenario (spec §8 scenario 4). -/
def fileInstrLine : List String :=
  ["# callgrind format",
   "events: Ir Dr Dw",
   "positions: instr line",
   "fn=m::b",
   "cfn=m::c",
   "calls=1 0 0",
   "0x10 7 1000 200 40"]

/-- A `positions: line instr` file for the mirrored two-column case; its cost
line carries fewer counters than events, exercising the missing-as-zero
rule. -/
def fileLineInstr : List String :=
  ["# callgrind format",
   "events: Ir Dr Dw",
   "positions: line instr",
   "fn=m::b",
   "cfn=m::c",
   "calls=1 0 0",
   "7 0x10 55 6"]

/-- A `positions: instr` file (single position column). -/
def fileInstr : List String :=
  ["# callgrind format",
   "events: Ir Dr Dw",
   "positions: instr",
   "fn=m::b",
   "cfn=m::c",
   "calls=1 0",
   "0x1f 8 2 1"]

/-- A `positions: line` file with two cost lines, the second shorter than the
events list: the missing trailing counters leave the other slots unchanged. -/
def fileLineShort : List String :=
  ["# callgrind format",
   "events: Ir Dr Dw",
   "positions: line",
   "fn=m::b",
   "cfn=m::c",
   "calls=1 1",
   "1 10 20 30",
   "2 5"]

/-- C6 counterexample: the parser `parse_callgrind_output` of `lib.rs` (one
of the claim's cited parsers) never reads the `positions:` header and always
skips exactly one leading column; on a `positions: instr line` file it
therefore counts the second position column `7` as `Ir` instead of skipping
it, yielding `Ir = 7` where the claim requires two skipped columns
(`Ir = 1000`). -/
theorem parse_skips_one_column_only :
    (parse_callgrind_output fileInstrLine "bench.rs" "m" "b").map
      CallgrindStats.instructions_executed = some 7 ∧
    (parse_callgrind_output fileInstrLine "bench.rs" "m" "b").map
      CallgrindStats.instructions_executed ≠ some 1000 := by
  decide

/-- C6 amended: `CallgrindOutput::parse` of `runner/callgrind/mod.rs` skips
exactly one leading position column under `positions: line` or
`positions: instr` and exactly two under `positions: instr line` /
`line instr`, and counters missing at the end of a cost line are treated as
zero with the remaining slots unchanged; the older `parse_callgrind_output`
of `lib.rs` always skips exactly one column regardless of the declared
positions mode. -/
theorem callgrind_output_parse_position_columns :
    CallgrindOutput.parse fileInstrLine "bench.rs" ⟨"m::b"⟩ =
      some { instructions_executed := 1000
             total_data_cache_reads := 200
             total_data_cache_writes := 40
             l1_instructions_cache_read_misses := 0
             l1_data_cache_read_misses := 0
             l1_data_cache_write_misses := 0
             l3_instructions_cache_read_misses := 0
             l3_data_cache_read_misses := 0
             l3_data_cache_write_misses := 0 } ∧
    CallgrindOutput.parse fileLineInstr "bench.rs" ⟨"m::b"⟩ =
      some { instructions_executed := 55
             total_data_cache_reads := 6
             total_data_cache_writes := 0
             l1_instructions_cache_read_misses := 0
             l1_data_cache_read_misses := 0
             l1_data_cache_write_misses := 0
             l3_instructions_cache_read_misses := 0
             l3_data_cache_read_misses := 0
             l3_data_cache_write_misses := 0 } ∧
    CallgrindOutput.parse fileInstr "bench.rs" ⟨"m::b"⟩ =
      some { instructions_executed := 8
             total_data_cache_reads := 2
             total_data_cache_writes := 1
             l1_instructions_cache_read_misses := 0
             l1_data_cache_read_misses := 0
             l1_data_cache_write_misses := 0
             l3_instructions_cache_read_misses := 0
             l3_data_cache_read_misses := 0
             l3_data_cache_write_misses := 0 } ∧
    CallgrindOutput.parse fileLineShort "bench.rs" ⟨"m::b"⟩ =
      some { instructions_executed := 15
             total_data_cache_reads := 20
             total_data_cache_writes := 30
             l1_instructions_cache_read_misses := 0
             l1_data_cache_read_misses := 0
             l1_data_cache_write_misses := 0
             l3_instructions_cache_read_misses := 0
             l3_data_cache_read_misses := 0
             l3_data_cache_write_misses := 0 } ∧
    (parse_callgrind_output fileInstrLine "bench.rs" "m" "b").map
      CallgrindStats.instructions_executed = some 7 := by
  decide

/-! ## Claim C2 — the new cost model -/

/-- C2: for every `CallgrindStats` value (within `u64` range and with the
cache-hierarchy counters consistent, so that no `u64` subtraction wraps),
`summarize` computes `ram_hits = ILmr + DLmr + DLmw`,
`l3_hits = (I1mr + D1mr + D1mw) - ram_hits`, `total_rw = Ir + Dr + Dw`,
`l1_hits = total_rw - l3_hits - ram_hits` and
`cycles = l1_hits + 5 * l3_hits + 35 * ram_hits`. -/
theorem summarize_cost_model (s : CallgrindStats)
    (h1 : s.l3_instructions_cache_read_misses + s.l3_data_cache_read_misses +
        s.l3_data_cache_write_misses ≤
      s.l1_instructions_cache_read_misses + s.l1_data_cache_read_misses +
        s.l1_data_cache_write_misses)
    (h2 : s.l1_instructions_cache_read_misses + s.l1_data_cache_read_misses +
        s.l1_data_cache_write_misses ≤
      s.instructions_executed + s.total_data_cache_reads + s.total_data_cache_writes)
    (h3 : s.instructions_executed + s.total_data_cache_reads + s.total_data_cache_writes <
      288230376151711744) :
    s.summarize.ram_hits = s.l3_instructions_cache_read_misses +
        s.l3_data_cache_read_misses + s.l3_data_cache_write_misses ∧
    s.summarize.l3_hits = (s.l1_instructions_cache_read_misses +
        s.l1_data_cache_read_misses + s.l1_data_cache_write_misses) - s.summarize.ram_hits ∧
    s.summarize.total_memory_rw = s.instructions_executed + s.total_data_cache_reads +
        s.total_data_cache_writes ∧
    s.summarize.l1_hits = s.summarize.total_memory_rw - s.summarize.l3_hits -
        s.summarize.ram_hits ∧
    s.summarize.cycles = s.summarize.l1_hits + 5 * s.summarize.l3_hits +
        35 * s.summarize.ram_hits := by
  obtain ⟨ir, i1mr, ilmr, dr, d1mr, dlmr, dw, d1mw, dlmw⟩ := s
  simp only [CallgrindStats.summarize] at *
  have hdd : add64 d1mr d1mw = d1mr + d1mw := add64_eq (by unfold U64; omega)
  rw [hdd]
  have hmiss : add64 i1mr (d1mr + d1mw) = i1mr + d1mr + d1mw :=
    (add64_eq (by unfold U64; omega)).trans (by omega)
  rw [hmiss]
  have hld : add64 ilmr dlmr = ilmr + dlmr := add64_eq (by unfold U64; omega)
  rw [hld]
  have hram : add64 (ilmr + dlmr) dlmw = ilmr + dlmr + dlmw :=
    add64_eq (by unfold U64; omega)
  rw [hram]
  have hl3 : sub64 (i1mr + d1mr + d1mw) (ilmr + dlmr + dlmw) =
      i1mr + d1mr + d1mw - (ilmr + dlmr + dlmw) :=
    sub64_eq (by omega) (by unfold U64; omega)
  rw [hl3]
  have hird : add64 ir dr = ir + dr := add64_eq (by unfold U64; omega)
  rw [hird]
  have htot : add64 (ir + dr) dw = ir + dr + dw := add64_eq (by unfold U64; omega)
  rw [htot]
  have hsub1 : sub64 (ir + dr + dw) (ilmr + dlmr + dlmw) =
      ir + dr + dw - (ilmr + dlmr + dlmw) :=
    sub64_eq (by omega) (by unfold U64; omega)
  rw [hsub1]
  have hl1 : sub64 (ir + dr + dw - (ilmr + dlmr + dlmw))
        (i1mr + d1mr + d1mw - (ilmr + dlmr + dlmw)) =
      ir + dr + dw - (ilmr + dlmr + dlmw) - (i1mr + d1mr + d1mw - (ilmr + dlmr + dlmw)) :=
    sub64_eq (by omega) (by unfold U64; omega)
  rw [hl1]
  have hm5 : mul64 5 (i1mr + d1mr + d1mw - (ilmr + dlmr + dlmw)) =
      5 * (i1mr + d1mr + d1mw - (ilmr + dlmr + dlmw)) :=
    (mul64_eq (by unfold U64; omega))
  rw [hm5]
  have hm35 : mul64 35 (ilmr + dlmr + dlmw) = 35 * (ilmr + dlmr + dlmw) :=
    (mul64_eq (by unfold U64; omega))
  rw [hm35]
  have hcadd : add64 (ir + dr + dw - (ilmr + dlmr + dlmw) -
        (i1mr + d1mr + d1mw - (ilmr + dlmr + dlmw)))
        (5 * (i1mr + d1mr + d1mw - (ilmr + dlmr + dlmw))) =
      ir + dr + dw - (ilmr + dlmr + dlmw) -
        (i1mr + d1mr + d1mw - (ilmr + dlmr + dlmw)) +
        5 * (i1mr + d1mr + d1mw - (ilmr + dlmr + dlmw)) :=
    add64_eq (by unfold U64; omega)
  rw [hcadd]
  rw [add64_eq (by unfold U64; omega)]
  refine ⟨rfl, by omega, rfl, by omega, by omega⟩

/-- Witness for C2 at a concrete counter record. -/
theorem summarize_cost_model_witness :
    (⟨100, 6, 2, 30, 3, 1, 20, 5, 1⟩ : CallgrindStats).summarize.cycles =
      (⟨100, 6, 2, 30, 3, 1, 20, 5, 1⟩ : CallgrindStats).summarize.l1_hits +
        5 * (⟨100, 6, 2, 30, 3, 1, 20, 5, 1⟩ : CallgrindStats).summarize.l3_hits +
        35 * (⟨100, 6, 2, 30, 3, 1, 20, 5, 1⟩ : CallgrindStats).summarize.ram_hits :=
  (summarize_cost_model ⟨100, 6, 2, 30, 3, 1, 20, 5, 1⟩ (by decide) (by decide)
    (by decide)).2.2.2.2

/-! ## Claim C5 — the two cost-model formulations agree -/

/-- C5: under the claim's consistency hypotheses, the old `summarize` of
`lib.rs` and the new `summarize` of `runner/callgrind/mod.rs` produce equal
`total_rw`, `l3_hits`, `ram_hits` and `cycles`; the old `l1_data_hits` plus
`Ir` equals (as `u64` addition) the new `l1_hits`; and the `assert!` in the
old `summarize` never fails (it returns `some`). -/
theorem summarize_old_new_agree (s : CallgrindStats)
    (h1 : s.l3_instructions_cache_read_misses + s.l3_data_cache_read_misses +
        s.l3_data_cache_write_misses ≤
      s.l1_instructions_cache_read_misses + s.l1_data_cache_read_misses +
        s.l1_data_cache_write_misses)
    (h2 : s.l1_instructions_cache_read_misses + s.l1_data_cache_read_misses +
        s.l1_data_cache_write_misses ≤
      s.instructions_executed + s.total_data_cache_reads + s.total_data_cache_writes) :
    ∃ old, s.summarizeLib = some old ∧
      old.total_memory_rw = s.summarize.total_memory_rw ∧
      old.l3_hits = s.summarize.l3_hits ∧
      old.ram_hits = s.summarize.ram_hits ∧
      old.cycles = s.summarize.cycles ∧
      add64 old.l1_data_hits s.instructions_executed = s.summarize.l1_hits := by
  obtain ⟨ir, i1mr, ilmr, dr, d1mr, dlmr, dw, d1mw, dlmw⟩ := s
  clear h1 h2
  simp only [CallgrindStats.summarizeLib, CallgrindStats.summarize]
  generalize hrm : add64 (add64 ilmr dlmr) dlmw = rm
  generalize hmiss : add64 i1mr (add64 d1mr d1mw) = miss
  generalize hr3 : sub64 miss rm = r3
  generalize ht : add64 (add64 ir dr) dw = t
  have hrmU : rm < 18446744073709551616 := hrm ▸ add64_lt _ _
  have hr3U : r3 < 18446744073709551616 := hr3 ▸ sub64_lt _ _
  have htU : t < 18446744073709551616 := ht ▸ add64_lt _ _
  clear hrm hmiss hr3 ht
  have hcond : t = add64 (add64 (add64 (sub64 (sub64 t ir) (add64 rm r3)) ir) r3) rm := by
    simp only [add64, sub64, U64]
    omega
  rw [if_pos hcond]
  clear hcond
  refine ⟨_, rfl, rfl, rfl, rfl, ?_, ?_⟩ <;>
    (simp only [add64, sub64, mul64, U64]; omega)

/-- Witness for C5 at a concrete counter record. -/
theorem summarize_old_new_agree_witness :
    ∃ old, (⟨100, 6, 2, 30, 3, 1, 20, 5, 1⟩ : CallgrindStats).summarizeLib = some old ∧
      old.total_memory_rw =
        (⟨100, 6, 2, 30, 3, 1, 20, 5, 1⟩ : CallgrindStats).summarize.total_memory_rw ∧
      old.l3_hits = (⟨100, 6, 2, 30, 3, 1, 20, 5, 1⟩ : CallgrindStats).summarize.l3_hits ∧
      old.ram_hits = (⟨100, 6, 2, 30, 3, 1, 20, 5, 1⟩ : CallgrindStats).summarize.ram_hits ∧
      old.cycles = (⟨100, 6, 2, 30, 3, 1, 20, 5, 1⟩ : CallgrindStats).summarize.cycles ∧
      add64 old.l1_data_hits
          (⟨100, 6, 2, 30, 3, 1, 20, 5, 1⟩ : CallgrindStats).instructions_executed =
        (⟨100, 6, 2, 30, 3, 1, 20, 5, 1⟩ : CallgrindStats).summarize.l1_hits :=
  summarize_old_new_agree ⟨100, 6, 2, 30, 3, 1, 20, 5, 1⟩ (by decide) (by decide)

/-! ## Claim C4 — exit-status reconciliation -/

/-- C4: for every child exit code `c` and optional `exit_with` policy, both
`check_exit` (tool runner) and `CallgrindCommand::check_exit` return `Ok`
exactly when the policy is satisfied — no policy or `Success` requires
`c = 0`, `Code k` requires `c = k`, `Failure` requires `c ≠ 0` — and in every
other case return the benchmark-launch error carrying the captured output. -/
theorem check_exit_policy (out : Output) (c : Int) (p : Option ExitWith)
    (h : out.status_code = some c) :
    check_exit out p =
      (if exitOk c p then .ok out else .error (.ProcessError out)) ∧
    CallgrindCommand.check_exit out p =
      some (if exitOk c p then .ok (out.stdout, out.stderr) else .error out) := by
  simp only [check_exit, CallgrindCommand.check_exit, h]
  rcases p with _ | (_ | _ | k)
  · by_cases hc : c = 0 <;> simp [exitOk, hc]
  · by_cases hc : c = 0 <;> simp [exitOk, hc]
  · by_cases hc : c = 0 <;> simp [exitOk, hc]
  · by_cases hc : c = 0
    · subst hc
      by_cases hk : k = 0 <;> simp [exitOk, hk, eq_comm]
    · rcases eq_or_ne c k with hk | hk
      · subst hk
        simp [exitOk, hc]
      · simp [exitOk, hc, hk, eq_comm]

/-- Witness for C4 at a concrete output and policy. -/
theorem check_exit_policy_witness :
    check_exit ⟨some 3, "o", "e"⟩ (some (.Code 3)) =
      (if exitOk 3 (some (.Code 3)) then .ok ⟨some 3, "o", "e"⟩
       else .error (.ProcessError ⟨some 3, "o", "e"⟩)) :=
  (check_exit_policy ⟨some 3, "o", "e"⟩ 3 (some (.Code 3)) rfl).1

/-! ## Claim C9 — signal-terminated children -/

/-- C9: a child terminated by a signal has `status.code() = None`.  The tool
runner's `check_exit` returns the process error carrying the captured output,
as the spec states; but `CallgrindCommand::check_exit` in
`runner/callgrind/mod.rs` calls `output.status.code().unwrap()` and panics
(modelled `none`), terminating the runner abnormally instead of returning an
error value. -/
theorem check_exit_signal :
    ∀ p : Option ExitWith,
      check_exit ⟨none, "captured out", "captured err"⟩ p =
        .error (.ProcessError ⟨none, "captured out", "captured err"⟩) ∧
      CallgrindCommand.check_exit ⟨none, "captured out", "captured err"⟩ p = none := by
  intro p
  exact ⟨rfl, rfl⟩

/-! ## Claim C8 — an absent sentinel yields all-zero counters -/

/-- Elements of the tail of `dropWhile` are elements of the original list. -/
theorem mem_of_dropWhile_eq_cons {α : Type} (p : α → Bool) :
    ∀ (xs : List α) (f : α) (rest : List α),
      xs.dropWhile p = f :: rest → ∀ l ∈ rest, l ∈ xs := by
  intro xs
  induction xs with
  | nil => intro f rest h; simp [List.dropWhile] at h
  | cons x xs ih =>
    intro f rest h l hl
    by_cases hx : p x
    · rw [List.dropWhile_cons_of_pos hx] at h
      exact List.mem_cons_of_mem x (ih f rest h l hl)
    · rw [List.dropWhile_cons_of_neg hx] at h
      obtain ⟨-, hr⟩ := List.cons.injEq .. ▸ h
      exact List.mem_cons_of_mem x (hr ▸ hl)

/-- Elements of the remainder returned by `findPositionsMode` are elements of
the scanned list. -/
theorem mem_of_findPositionsMode :
    ∀ (xs : List String) (mode : PositionsMode) (rest : List String),
      findPositionsMode xs = some (mode, rest) → ∀ l ∈ rest, l ∈ xs := by
  intro xs
  induction xs with
  | nil => intro mode rest h; simp [findPositionsMode] at h
  | cons x xs ih =>
    intro mode rest h l hl
    unfold findPositionsMode at h
    cases hx : PositionsMode.from_positions_line x with
    | some m =>
      rw [hx] at h
      obtain ⟨-, hr⟩ := Prod.mk.injEq .. ▸ Option.some.injEq .. ▸ h
      exact List.mem_cons_of_mem x (hr ▸ hl)
    | none =>
      rw [hx] at h
      exact List.mem_cons_of_mem x (ih mode rest h l hl)

/-- A line that does not start with the sentinel leaves the `mod` parser in
the not-yet-recording state with unchanged counters. -/
theorem modStep_not_started (sentinelFn benchFile : List Char) (mode : PositionsMode)
    (cnt : List Nat) (l : String)
    (hl : listStartsWith (trimStartAscii l.data) sentinelFn = false) :
    modStep sentinelFn benchFile mode ⟨cnt, false⟩ l = some ⟨cnt, false⟩ := by
  unfold modStep
  by_cases he : (trimStartAscii l.data).isEmpty <;> simp [he, hl]

/-- If no line starts with the sentinel, the `mod` parser loop keeps the
counters unchanged. -/
theorem modLoop_no_sentinel (sentinelFn benchFile : List Char) (mode : PositionsMode) :
    ∀ (lines : List String) (cnt : List Nat),
      (∀ l ∈ lines, listStartsWith (trimStartAscii l.data) sentinelFn = false) →
      modLoop sentinelFn benchFile mode lines ⟨cnt, false⟩ = some ⟨cnt, false⟩ := by
  intro lines
  induction lines with
  | nil => intro cnt _; rfl
  | cons l ls ih =>
    intro cnt hall
    unfold modLoop
    rw [modStep_not_started sentinelFn benchFile mode cnt l (hall l (List.mem_cons_self l ls))]
    exact ih cnt fun x hx => hall x (List.mem_cons_of_mem l hx)

/-- A line that does not start with the sentinel leaves the `lib` parser in
the not-yet-recording state with unchanged counters (the auxiliary flags may
be reset by a blank line). -/
theorem libStep_not_started (sentinel benchFile : List Char)
    (cnt : List Nat) (mc sc : Bool) (l : String)
    (hl : listStartsWith (trimStartAscii l.data) sentinel = false) :
    ∃ mc' sc', libStep sentinel benchFile ⟨cnt, false, mc, sc⟩ l = some ⟨cnt, false, mc', sc'⟩ := by
  unfold libStep
  by_cases he : (trimStartAscii l.data).isEmpty
  · exact ⟨false, false, by simp [he, hl]⟩
  · exact ⟨mc, sc, by simp [he, hl]⟩

/-- If no line starts with the sentinel, the `lib` parser loop keeps the
counters unchanged. -/
theorem libLoop_no_sentinel (sentinel benchFile : List Char) :
    ∀ (lines : List String) (cnt : List Nat) (mc sc : Bool),
      (∀ l ∈ lines, listStartsWith (trimStartAscii l.data) sentinel = false) →
      ∃ mc' sc',
        libLoop sentinel benchFile lines ⟨cnt, false, mc, sc⟩ = some ⟨cnt, false, mc', sc'⟩ := by
  intro lines
  induction lines with
  | nil => intro cnt mc sc _; exact ⟨mc, sc, rfl⟩
  | cons l ls ih =>
    intro cnt mc sc hall
    obtain ⟨mc1, sc1, hstep⟩ :=
      libStep_not_started sentinel benchFile cnt mc sc l (hall l (List.mem_cons_self l ls))
    unfold libLoop
    rw [hstep]
    exact ih cnt mc1 sc1 fun x hx => hall x (List.mem_cons_of_mem l hx)

/-- C8: for every callgrind output file in which no line begins with
`fn=<sentinel>` (after the source's `trim_start`), whenever parsing succeeds
it returns a `CallgrindStats` whose nine counters are all zero — for both
`parse_callgrind_output` of `lib.rs` (first conjunct) and
`CallgrindOutput::parse` of `runner/callgrind/mod.rs` (second conjunct). -/
theorem parse_zero_when_sentinel_absent :
    (∀ (file : List String) (bf module fn : String) (stats : CallgrindStats),
        parse_callgrind_output file bf module fn = some stats →
        (∀ l ∈ file,
          listStartsWith (trimStartAscii l.data) ("fn=" ++ module ++ "::" ++ fn).data = false) →
        stats = zeroStats) ∧
    (∀ (file : List String) (bf : String) (snt : Sentinel) (stats : CallgrindStats),
        CallgrindOutput.parse file bf snt = some stats →
        (∀ l ∈ file, listStartsWith (trimStartAscii l.data) snt.to_fn.data = false) →
        stats = zeroStats) := by
  constructor
  · intro file bf module fn stats hparse hall
    unfold parse_callgrind_output at hparse
    cases hdrop : file.dropWhile isBlankLine with
    | nil => rw [hdrop] at hparse; exact absurd hparse (by simp)
    | cons fmt rest =>
      rw [hdrop] at hparse
      dsimp only at hparse
      have hrest : ∀ l ∈ rest,
          listStartsWith (trimStartAscii l.data) ("fn=" ++ module ++ "::" ++ fn).data = false :=
        fun l hl => hall l (mem_of_dropWhile_eq_cons isBlankLine file fmt rest hdrop l hl)
      obtain ⟨mc', sc', hloop⟩ :=
        libLoop_no_sentinel ("fn=" ++ module ++ "::" ++ fn).data bf.data rest
          counters0 false false hrest
      rw [hloop] at hparse
      have hs : statsOfCounters counters0 = stats := by simpa using hparse
      rw [← hs]
      decide
  · intro file bf snt stats hparse hall
    unfold CallgrindOutput.parse at hparse
    cases hdrop : file.dropWhile isBlankLine with
    | nil => rw [hdrop] at hparse; exact absurd hparse (by simp)
    | cons fmt rest =>
      rw [hdrop] at hparse
      dsimp only at hparse
      cases hfind : findPositionsMode rest with
      | none => rw [hfind] at hparse; exact absurd hparse (by simp)
      | some mr =>
        obtain ⟨mode, body⟩ := mr
        rw [hfind] at hparse
        dsimp only at hparse
        have hbody : ∀ l ∈ body,
            listStartsWith (trimStartAscii l.data) snt.to_fn.data = false :=
          fun l hl => hall l
            (mem_of_dropWhile_eq_cons isBlankLine file fmt rest hdrop l
              (mem_of_findPositionsMode rest mode body hfind l hl))
        rw [modLoop_no_sentinel snt.to_fn.data bf.data mode body counters0 hbody] at hparse
        have hs : statsOfCounters counters0 = stats := by simpa using hparse
        rw [← hs]
        decide

/-- Witness for C8: concrete files with no sentinel line parse to the all-zero
counters under both parsers. -/
theorem parse_zero_when_sentinel_absent_witness :
    (parse_callgrind_output ["# callgrind format", "5 7 8"] "b.rs" "foo" "bar").getD
        zeroStats = zeroStats ∧
    (CallgrindOutput.parse ["# callgrind format", "positions: line", "5 7 8"] "b.rs"
        ⟨"foo::bar"⟩).getD zeroStats = zeroStats := by
  constructor
  · exact parse_zero_when_sentinel_absent.1 ["# callgrind format", "5 7 8"] "b.rs" "foo" "bar"
      _ rfl (by decide)
  · exact parse_zero_when_sentinel_absent.2 ["# callgrind format", "positions: line", "5 7 8"]
      "b.rs" ⟨"foo::bar"⟩ _ rfl (by decide)

/-! ## Claim C7 — argument canonicalization -/

/-- If a string starts with two patterns, the shorter pattern starts the
longer one. -/
theorem listStartsWith_trans :
    ∀ (p q a : List Char), listStartsWith a p = true → listStartsWith a q = true →
      p.length ≤ q.length → listStartsWith q p = true := by
  intro p
  induction p with
  | nil => intro q a _ _ _; cases q <;> rfl
  | cons x ps ih =>
    intro q a hp hq hlen
    cases a with
    | nil => simp [listStartsWith] at hp
    | cons b as =>
      cases q with
      | nil => simp at hlen
      | cons y qs =>
        simp only [listStartsWith, Bool.and_eq_true, decide_eq_true_eq] at hp hq ⊢
        obtain ⟨hbx, hps⟩ := hp
        obtain ⟨hby, hqs⟩ := hq
        subst hby
        exact ⟨hbx, ih qs as hps hqs (by simpa using hlen)⟩

/-- Two patterns neither of which starts the other cannot both start the same
string. -/
theorem listStartsWith_excl {a p q : List Char}
    (hp : listStartsWith p q = false) (hq : listStartsWith q p = false)
    (h : listStartsWith a q = true) : listStartsWith a p = false := by
  cases hap : listStartsWith a p
  · rfl
  · rcases Nat.le_total p.length q.length with hl | hl
    · exact absurd (listStartsWith_trans p q a hap h hl) (by simp [hq])
    · exact absurd (listStartsWith_trans q p a h hap hl) (by simp [hp])

/-- Arguments recognized by none of the nine flag tests pass through to
`other` verbatim (the final `else` of the chain). -/
def isPassThrough (a : String) : Bool :=
  !(listStartsWith a.data "--I1=".data || listStartsWith a.data "--D1=".data ||
    listStartsWith a.data "--LL=".data || listStartsWith a.data "--cache-sim=".data ||
    listStartsWith a.data "--collect-atstart=".data ||
    listStartsWith a.data "--compress-strings=".data ||
    listStartsWith a.data "--compress-pos=".data ||
    listStartsWith a.data "--toggle-collect=".data ||
    listStartsWith a.data "--callgrind-out-file=".data)

/-- The last argument starting with `p`, or the default when none does. -/
def lastStartingWith (p : String) (args : List String) (dflt : String) : String :=
  ((args.filter fun a => listStartsWith a.data p.data).getLast?).getD dflt

theorem getLastD_cons {α : Type} (a : α) (l : List α) (d : α) :
    ((a :: l).getLast?).getD d = (l.getLast?).getD a := by
  cases l with
  | nil => rfl
  | cons b t =>
    rw [List.getLast?_cons_cons]
    cases h : (b :: t).getLast? with
    | none => simp at h
    | some x => rfl

theorem lastStartingWith_cons_pos {a : String} {p : String}
    (h : listStartsWith a.data p.data = true) (l : List String) (d : String) :
    lastStartingWith p (a :: l) d = lastStartingWith p l a := by
  unfold lastStartingWith
  rw [List.filter_cons_of_pos (by simpa using h), getLastD_cons]

theorem lastStartingWith_cons_neg {a : String} {p : String}
    (h : listStartsWith a.data p.data = false) (l : List String) (d : String) :
    lastStartingWith p (a :: l) d = lastStartingWith p l d := by
  unfold lastStartingWith
  rw [List.filter_cons_of_neg (by simp [h])]

theorem fromArgsStep_i1_eq (acc : CallgrindArgs) (a : String) :
    (fromArgsStep acc a).i1 =
      if listStartsWith a.data "--I1=".data then a else acc.i1 := by
  by_cases h : listStartsWith a.data "--I1=".data = true
  · simp [fromArgsStep, h]
  · simp only [Bool.not_eq_true] at h
    simp only [fromArgsStep, h, if_neg, Bool.false_eq_true, if_false]
    split_ifs <;> first
      | rfl
      | (cases acc.toggle_collect <;> rfl)

theorem fromArgsStep_d1_eq (acc : CallgrindArgs) (a : String) :
    (fromArgsStep acc a).d1 =
      if listStartsWith a.data "--D1=".data then a else acc.d1 := by
  by_cases h : listStartsWith a.data "--D1=".data = true
  · have h1 : listStartsWith a.data "--I1=".data = false :=
      listStartsWith_excl (by decide) (by decide) h
    simp [fromArgsStep, h, h1]
  · simp only [Bool.not_eq_true] at h
    simp only [fromArgsStep, h, Bool.false_eq_true, if_false]
    split_ifs <;> first
      | rfl
      | (cases acc.toggle_collect <;> rfl)

theorem fromArgsStep_ll_eq (acc : CallgrindArgs) (a : String) :
    (fromArgsStep acc a).ll =
      if listStartsWith a.data "--LL=".data then a else acc.ll := by
  by_cases h : listStartsWith a.data "--LL=".data = true
  · have h1 : listStartsWith a.data "--I1=".data = false :=
      listStartsWith_excl (by decide) (by decide) h
    have h2 : listStartsWith a.data "--D1=".data = false :=
      listStartsWith_excl (by decide) (by decide) h
    simp [fromArgsStep, h, h1, h2]
  · simp only [Bool.not_eq_true] at h
    simp only [fromArgsStep, h, Bool.false_eq_true, if_false]
    split_ifs <;> first
      | rfl
      | (cases acc.toggle_collect <;> rfl)

theorem fromArgsStep_collect_atstart_eq (acc : CallgrindArgs) (a : String) :
    (fromArgsStep acc a).collect_atstart =
      if listStartsWith a.data "--collect-atstart=".data then a else acc.collect_atstart := by
  by_cases h : listStartsWith a.data "--collect-atstart=".data = true
  · have h1 : listStartsWith a.data "--I1=".data = false :=
      listStartsWith_excl (by decide) (by decide) h
    have h2 : listStartsWith a.data "--D1=".data = false :=
      listStartsWith_excl (by decide) (by decide) h
    have h3 : listStartsWith a.data "--LL=".data = false :=
      listStartsWith_excl (by decide) (by decide) h
    have h4 : listStartsWith a.data "--cache-sim=".data = false :=
      listStartsWith_excl (by decide) (by decide) h
    simp [fromArgsStep, h, h1, h2, h3, h4]
  · simp only [Bool.not_eq_true] at h
    simp only [fromArgsStep, h, Bool.false_eq_true, if_false]
    split_ifs <;> first
      | rfl
      | (cases acc.toggle_collect <;> rfl)

theorem fromArgsStep_compress_strings_eq (acc : CallgrindArgs) (a : String) :
    (fromArgsStep acc a).compress_strings =
      if listStartsWith a.data "--compress-strings=".data then a
      else acc.compress_strings := by
  by_cases h : listStartsWith a.data "--compress-strings=".data = true
  · have h1 : listStartsWith a.data "--I1=".data = false :=
      listStartsWith_excl (by decide) (by decide) h
    have h2 : listStartsWith a.data "--D1=".data = false :=
      listStartsWith_excl (by decide) (by decide) h
    have h3 : listStartsWith a.data "--LL=".data = false :=
      listStartsWith_excl (by decide) (by decide) h
    have h4 : listStartsWith a.data "--cache-sim=".data = false :=
      listStartsWith_excl (by decide) (by decide) h
    have h5 : listStartsWith a.data "--collect-atstart=".data = false :=
      listStartsWith_excl (by decide) (by decide) h
    simp [fromArgsStep, h, h1, h2, h3, h4, h5]
  · simp only [Bool.not_eq_true] at h
    simp only [fromArgsStep, h, Bool.false_eq_true, if_false]
    split_ifs <;> first
      | rfl
      | (cases acc.toggle_collect <;> rfl)

theorem fromArgsStep_compress_pos_eq (acc : CallgrindArgs) (a : String) :
    (fromArgsStep acc a).compress_pos =
      if listStartsWith a.data "--compress-pos=".data then a else acc.compress_pos := by
  by_cases h : listStartsWith a.data "--compress-pos=".data = true
  · have h1 : listStartsWith a.data "--I1=".data = false :=
      listStartsWith_excl (by decide) (by decide) h
    have h2 : listStartsWith a.data "--D1=".data = false :=
      listStartsWith_excl (by decide) (by decide) h
    have h3 : listStartsWith a.data "--LL=".data = false :=
      listStartsWith_excl (by decide) (by decide) h
    have h4 : listStartsWith a.data "--cache-sim=".data = false :=
      listStartsWith_excl (by decide) (by decide) h
    have h5 : listStartsWith a.data "--collect-atstart=".data = false :=
      listStartsWith_excl (by decide) (by decide) h
    have h6 : listStartsWith a.data "--compress-strings=".data = false :=
      listStartsWith_excl (by decide) (by decide) h
    simp [fromArgsStep, h, h1, h2, h3, h4, h5, h6]
  · simp only [Bool.not_eq_true] at h
    simp only [fromArgsStep, h, Bool.false_eq_true, if_false]
    split_ifs <;> first
      | rfl
      | (cases acc.toggle_collect <;> rfl)

theorem fromArgsStep_toggle_eq (acc : CallgrindArgs) (a : String) :
    (fromArgsStep acc a).toggle_collect =
      if listStartsWith a.data "--toggle-collect=".data then
        some (acc.toggle_collect.getD [] ++ [a])
      else acc.toggle_collect := by
  by_cases h : listStartsWith a.data "--toggle-collect=".data = true
  · have h1 : listStartsWith a.data "--I1=".data = false :=
      listStartsWith_excl (by decide) (by decide) h
    have h2 : listStartsWith a.data "--D1=".data = false :=
      listStartsWith_excl (by decide) (by decide) h
    have h3 : listStartsWith a.data "--LL=".data = false :=
      listStartsWith_excl (by decide) (by decide) h
    have h4 : listStartsWith a.data "--cache-sim=".data = false :=
      listStartsWith_excl (by decide) (by decide) h
    have h5 : listStartsWith a.data "--collect-atstart=".data = false :=
      listStartsWith_excl (by decide) (by decide) h
    have h6 : listStartsWith a.data "--compress-strings=".data = false :=
      listStartsWith_excl (by decide) (by decide) h
    have h7 : listStartsWith a.data "--compress-pos=".data = false :=
      listStartsWith_excl (by decide) (by decide) h
    cases htc : acc.toggle_collect <;>
      simp [fromArgsStep, h, h1, h2, h3, h4, h5, h6, h7, htc]
  · simp only [Bool.not_eq_true] at h
    simp only [fromArgsStep, h, Bool.false_eq_true, if_false]
    split_ifs <;> rfl

theorem fromArgsStep_cache_sim_eq (acc : CallgrindArgs) (a : String) :
    (fromArgsStep acc a).cache_sim = acc.cache_sim := by
  unfold fromArgsStep
  split_ifs <;> first
    | rfl
    | (cases acc.toggle_collect <;> rfl)

theorem fromArgsStep_out_file_eq (acc : CallgrindArgs) (a : String) :
    (fromArgsStep acc a).callgrind_out_file = acc.callgrind_out_file := by
  unfold fromArgsStep
  split_ifs <;> first
    | rfl
    | (cases acc.toggle_collect <;> rfl)

theorem fromArgsStep_other_eq (acc : CallgrindArgs) (a : String) :
    (fromArgsStep acc a).other =
      if isPassThrough a then acc.other ++ [a] else acc.other := by
  by_cases h : isPassThrough a = true
  · simp only [isPassThrough, Bool.not_eq_true', Bool.or_eq_false_iff] at h
    obtain ⟨⟨⟨⟨⟨⟨⟨⟨f1, f2⟩, f3⟩, f4⟩, f5⟩, f6⟩, f7⟩, f8⟩, f9⟩ := h
    simp only [fromArgsStep, f1, f2, f3, f4, f5, f6, f7, f8, f9, Bool.false_eq_true, if_false]
    simp [isPassThrough, f1, f2, f3, f4, f5, f6, f7, f8, f9]
  · simp only [Bool.not_eq_true] at h
    rw [h]
    simp only [Bool.false_eq_true, if_false]
    unfold fromArgsStep
    split_ifs with g1 g2 g3 g4 g5 g6 g7 g8 g9
    · rfl
    · rfl
    · rfl
    · rfl
    · rfl
    · rfl
    · rfl
    · cases acc.toggle_collect <;> rfl
    · rfl
    · exfalso
      simp only [isPassThrough, Bool.not_eq_false'] at h
      simp [g1, g2, g3, g4, g5, g6, g7, g8, g9] at h

/-- Last-writer-wins for any single-valued field of the canonicalization
fold. -/
theorem foldl_lastStartingWith (proj : CallgrindArgs → String) (p : String)
    (hstep : ∀ acc a, proj (fromArgsStep acc a) =
      if listStartsWith a.data p.data then a else proj acc) :
    ∀ (args : List String) (acc : CallgrindArgs),
      proj (args.foldl fromArgsStep acc) = lastStartingWith p args (proj acc) := by
  intro args
  induction args with
  | nil => intro acc; rfl
  | cons a args ih =>
    intro acc
    rw [List.foldl_cons, ih (fromArgsStep acc a), hstep]
    by_cases h : listStartsWith a.data p.data = true
    · rw [if_pos h, lastStartingWith_cons_pos h]
    · simp only [Bool.not_eq_true] at h
      rw [h]
      simp only [Bool.false_eq_true, if_false]
      rw [lastStartingWith_cons_neg h]

/-- Fields the fold never writes stay at their initial value. -/
theorem foldl_const {α : Type} (proj : CallgrindArgs → α)
    (hstep : ∀ acc a, proj (fromArgsStep acc a) = proj acc) :
    ∀ (args : List String) (acc : CallgrindArgs),
      proj (args.foldl fromArgsStep acc) = proj acc := by
  intro args
  induction args with
  | nil => intro acc; rfl
  | cons a args ih =>
    intro acc
    rw [List.foldl_cons, ih (fromArgsStep acc a), hstep]

/-- The pass-through arguments are appended to `other` in order. -/
theorem foldl_other :
    ∀ (args : List String) (acc : CallgrindArgs),
      (args.foldl fromArgsStep acc).other = acc.other ++ args.filter isPassThrough := by
  intro args
  induction args with
  | nil => intro acc; simp
  | cons a args ih =>
    intro acc
    rw [List.foldl_cons, ih (fromArgsStep acc a), fromArgsStep_other_eq]
    by_cases h : isPassThrough a = true
    · rw [if_pos h, List.filter_cons_of_pos (by simpa using h)]
      simp
    · simp only [Bool.not_eq_true] at h
      rw [h]
      simp only [Bool.false_eq_true, if_false]
      rw [List.filter_cons_of_neg (by simp [h])]

/-- The toggle list accumulates every `--toggle-collect=` argument in
order. -/
theorem foldl_toggle_getD :
    ∀ (args : List String) (acc : CallgrindArgs),
      ((args.foldl fromArgsStep acc).toggle_collect).getD [] =
        acc.toggle_collect.getD [] ++
          args.filter fun a => listStartsWith a.data "--toggle-collect=".data := by
  intro args
  induction args with
  | nil => intro acc; simp
  | cons a args ih =>
    intro acc
    rw [List.foldl_cons, ih (fromArgsStep acc a), fromArgsStep_toggle_eq]
    by_cases h : listStartsWith a.data "--toggle-collect=".data = true
    · rw [if_pos h, List.filter_cons_of_pos (by simpa using h)]
      simp
    · simp only [Bool.not_eq_true] at h
      rw [h]
      simp only [Bool.false_eq_true, if_false]
      rw [List.filter_cons_of_neg (by simp [h])]

/-- The toggle option stays `None` exactly while no `--toggle-collect=`
argument has been seen. -/
theorem foldl_toggle_none :
    ∀ (args : List String) (acc : CallgrindArgs),
      ((args.foldl fromArgsStep acc).toggle_collect = none ↔
        (acc.toggle_collect = none ∧
          args.filter (fun a => listStartsWith a.data "--toggle-collect=".data) = [])) := by
  intro args
  induction args with
  | nil => intro acc; simp
  | cons a args ih =>
    intro acc
    rw [List.foldl_cons, ih (fromArgsStep acc a)]
    by_cases h : listStartsWith a.data "--toggle-collect=".data = true
    · rw [List.filter_cons_of_pos (by simpa using h)]
      simp [fromArgsStep_toggle_eq, h]
    · simp only [Bool.not_eq_true] at h
      rw [List.filter_cons_of_neg (by simp [h])]
      rw [fromArgsStep_toggle_eq, h]
      simp

/-- C7: `CallgrindArgs::from_args` keeps only the last occurrence of each of
the single-valued flags `--I1=`, `--D1=`, `--LL=`, `--collect-atstart=`,
`--compress-strings=`, `--compress-pos=` (falling back to the defaults);
appends every `--toggle-collect=` occurrence to the toggles list preserving
order; discards every `--cache-sim=` and `--callgrind-out-file=` argument
(those fields keep their defaults); and passes every other argument through
verbatim in order. -/
theorem from_args_canonicalization (args : List String) :
    (CallgrindArgs.from_args args).i1 =
      lastStartingWith "--I1=" args "--I1=32768,8,64" ∧
    (CallgrindArgs.from_args args).d1 =
      lastStartingWith "--D1=" args "--D1=32768,8,64" ∧
    (CallgrindArgs.from_args args).ll =
      lastStartingWith "--LL=" args "--LL=8388608,16,64" ∧
    (CallgrindArgs.from_args args).collect_atstart =
      lastStartingWith "--collect-atstart=" args "--collect-atstart=no" ∧
    (CallgrindArgs.from_args args).compress_strings =
      lastStartingWith "--compress-strings=" args "--compress-strings=no" ∧
    (CallgrindArgs.from_args args).compress_pos =
      lastStartingWith "--compress-pos=" args "--compress-pos=no" ∧
    (CallgrindArgs.from_args args).toggle_collect =
      (if (args.filter fun a => listStartsWith a.data "--toggle-collect=".data).isEmpty
       then none
       else some (args.filter fun a => listStartsWith a.data "--toggle-collect=".data)) ∧
    (CallgrindArgs.from_args args).cache_sim = "--cache-sim=yes" ∧
    (CallgrindArgs.from_args args).callgrind_out_file = none ∧
    (CallgrindArgs.from_args args).other = args.filter isPassThrough := by
  unfold CallgrindArgs.from_args
  refine ⟨?_, ?_, ?_, ?_, ?_, ?_, ?_, ?_, ?_, ?_⟩
  · exact foldl_lastStartingWith CallgrindArgs.i1 "--I1=" fromArgsStep_i1_eq args _
  · exact foldl_lastStartingWith CallgrindArgs.d1 "--D1=" fromArgsStep_d1_eq args _
  · exact foldl_lastStartingWith CallgrindArgs.ll "--LL=" fromArgsStep_ll_eq args _
  · exact foldl_lastStartingWith CallgrindArgs.collect_atstart "--collect-atstart="
      fromArgsStep_collect_atstart_eq args _
  · exact foldl_lastStartingWith CallgrindArgs.compress_strings "--compress-strings="
      fromArgsStep_compress_strings_eq args _
  · exact foldl_lastStartingWith CallgrindArgs.compress_pos "--compress-pos="
      fromArgsStep_compress_pos_eq args _
  · cases hf : args.filter (fun a => listStartsWith a.data "--toggle-collect=".data) with
    | nil =>
      simp only [List.isEmpty_nil, if_true]
      exact (foldl_toggle_none args callgrindArgsDefault).mpr ⟨rfl, hf⟩
    | cons x xs =>
      simp only [List.isEmpty_cons, if_false, Bool.false_eq_true]
      have hgd := foldl_toggle_getD args callgrindArgsDefault
      rw [hf] at hgd
      cases htc : (args.foldl fromArgsStep callgrindArgsDefault).toggle_collect with
      | none =>
        have := ((foldl_toggle_none args callgrindArgsDefault).mp htc).2
        rw [hf] at this
        exact absurd this (by simp)
      | some l =>
        rw [htc] at hgd
        simpa using hgd
  · exact foldl_const CallgrindArgs.cache_sim fromArgsStep_cache_sim_eq args _
  · exact foldl_const CallgrindArgs.callgrind_out_file fromArgsStep_out_file_eq args _
  · exact foldl_other args _

/-! ## Claim C3 — setup/teardown hooks and benching

Embedding of the `Assistant` hooks and the orchestration loop of
`src/iai-callgrind-runner/src/bin_bench.rs`.  Only the control flow relevant
to the claim is modelled: which path (`run_bench` or `run_plain`) each hook
invocation takes, and the mutation of the `bench` flag. -/

/-- The assistant kinds (`bin_bench.rs` lines 93-99). -/
inductive AssistantKind where
  | Setup : AssistantKind
  | Teardown : AssistantKind
  | Before : AssistantKind
  | After : AssistantKind
deriving DecidableEq, Repr

/-- An assistant function registered by the harness (`bin_bench.rs` lines
112-117). -/
structure Assistant where
  name : String
  kind : AssistantKind
  bench : Bool
deriving DecidableEq, Repr

/-- Which path an invocation took: `run_bench` (measured under callgrind) or
`run_plain`. -/
inductive RunKind where
  | Benched : RunKind
  | Plain : RunKind
deriving DecidableEq, Repr

/-- One event of the orchestration trace: an assistant invocation (with the
path it took) or a benchmark run. -/
inductive TraceEvent where
  | assist : AssistantKind → RunKind → TraceEvent
  | bench : String → TraceEvent
deriving DecidableEq, Repr

/-- Embedding of `Assistant::run` (`bin_bench.rs` lines 189-199): when
`bench` is set, a setup/teardown assistant clears the flag — but this same
invocation still takes the `run_bench` path; otherwise `run_plain`. -/
def Assistant.run (a : Assistant) : RunKind × Assistant :=
  if a.bench then
    let a :=
      match a.kind with
      | .Setup | .Teardown => { a with bench := false }
      | _ => a
    (.Benched, a)
  else
    (.Plain, a)

/-- Run an optional assistant slot, producing its trace events and the
updated slot (`if let Some(assist) = ... { assist.run(&config)? }`). -/
def runAssist : Option Assistant → List TraceEvent × Option Assistant
  | some a => ([.assist a.kind a.run.1], some a.run.2)
  | none => ([], none)

/-- The per-benchmark loop of `bin_bench.rs::run` (lines 458-468): setup,
bench, teardown, with the mutated assistants carried to the next
iteration. -/
def benchLoop : Option Assistant → Option Assistant → List String → List TraceEvent
  | _, _, [] => []
  | setup, teardown, b :: bs =>
    (runAssist setup).1 ++ (TraceEvent.bench b :: (runAssist teardown).1) ++
      benchLoop (runAssist setup).2 (runAssist teardown).2 bs

/-- The assistant slots (`bin_bench.rs` lines 202-208). -/
structure BenchmarkAssistants where
  before : Option Assistant
  after : Option Assistant
  setup : Option Assistant
  teardown : Option Assistant
deriving DecidableEq, Repr

/-- The whole orchestration of `bin_bench.rs::run` (lines 453-471): `before`,
then the per-benchmark loop, then `after`. -/
def binBenchRun (assists : BenchmarkAssistants) (benches : List String) : List TraceEvent :=
  (runAssist assists.before).1 ++ benchLoop assists.setup assists.teardown benches ++
    (runAssist assists.after).1

/-- The paths taken by the setup-hook invocations of a trace, in order. -/
def setupRuns (trace : List TraceEvent) : List RunKind :=
  trace.filterMap fun e =>
    match e with
    | .assist .Setup r => some r
    | _ => none

/-- The paths taken by the teardown-hook invocations of a trace, in order. -/
def teardownRuns (trace : List TraceEvent) : List RunKind :=
  trace.filterMap fun e =>
    match e with
    | .assist .Teardown r => some r
    | _ => none

/-- One benched invocation followed by plain ones. -/
def benchedOnce : Nat → List RunKind
  | 0 => []
  | n + 1 => .Benched :: List.replicate n .Plain

/-- C3 counterexample: with a setup hook configured `bench = true` and one
benchmark, the first setup invocation takes the `run_bench` path — it IS
measured under callgrind, contradicting the claim that every setup
invocation executes the plain path. -/
theorem setup_bench_true_first_invocation_benched :
    binBenchRun ⟨none, none, some ⟨"s", .Setup, true⟩, none⟩ ["b1"] =
      [.assist .Setup .Benched, .bench "b1"] := by
  decide

theorem assistant_run_kind (a : Assistant) : a.run.2.kind = a.kind := by
  rcases a with ⟨n, k, b⟩
  cases b <;> cases k <;> rfl

theorem assistant_run_bench_true (a : Assistant) (h : a.bench = true) :
    a.run.1 = .Benched := by
  rcases a with ⟨n, k, b⟩
  cases h
  rfl

theorem assistant_run_bench_false (a : Assistant) (h : a.bench = false) :
    a.run = (.Plain, a) := by
  rcases a with ⟨n, k, b⟩
  cases h
  rfl

theorem assistant_run_setup_clears (a : Assistant) (hk : a.kind = .Setup)
    (hb : a.bench = true) : a.run.2 = { a with bench := false } := by
  rcases a with ⟨n, k, b⟩
  cases hk
  cases hb
  rfl

theorem assistant_run_teardown_clears (a : Assistant) (hk : a.kind = .Teardown)
    (hb : a.bench = true) : a.run.2 = { a with bench := false } := by
  rcases a with ⟨n, k, b⟩
  cases hk
  cases hb
  rfl

theorem setupRuns_runAssist_other (o : Option Assistant)
    (h : ∀ x, o = some x → x.kind ≠ AssistantKind.Setup) :
    setupRuns (runAssist o).1 = [] := by
  cases o with
  | none => rfl
  | some a =>
    have hk := h a rfl
    simp only [runAssist, setupRuns, List.filterMap]
    cases hka : a.kind <;> simp_all

theorem teardownRuns_runAssist_other (o : Option Assistant)
    (h : ∀ x, o = some x → x.kind ≠ AssistantKind.Teardown) :
    teardownRuns (runAssist o).1 = [] := by
  cases o with
  | none => rfl
  | some a =>
    have hk := h a rfl
    simp only [runAssist, teardownRuns, List.filterMap]
    cases hka : a.kind <;> simp_all


theorem setupRuns_append (l1 l2 : List TraceEvent) :
    setupRuns (l1 ++ l2) = setupRuns l1 ++ setupRuns l2 :=
  List.filterMap_append l1 l2 _

theorem teardownRuns_append (l1 l2 : List TraceEvent) :
    teardownRuns (l1 ++ l2) = teardownRuns l1 ++ teardownRuns l2 :=
  List.filterMap_append l1 l2 _

theorem benchLoop_setupRuns :
    ∀ (bs : List String) (sa ta : Assistant), sa.kind = .Setup → ta.kind = .Teardown →
      setupRuns (benchLoop (some sa) (some ta) bs) =
        (if sa.bench then benchedOnce bs.length else List.replicate bs.length .Plain) := by
  intro bs
  induction bs with
  | nil =>
    intro sa ta hs ht
    cases hsb : sa.bench <;> simp [benchLoop, setupRuns, benchedOnce]
  | cons b bs ih =>
    intro sa ta hs ht
    have hrec := ih sa.run.2 ta.run.2 ((assistant_run_kind sa).trans hs)
      ((assistant_run_kind ta).trans ht)
    simp only [benchLoop, runAssist, hs, ht]
    rw [setupRuns_append, setupRuns_append, hrec]
    cases hsb : sa.bench with
    | true =>
      rw [assistant_run_bench_true sa hsb, assistant_run_setup_clears sa hs hsb]
      simp [setupRuns, benchedOnce]
    | false =>
      rw [assistant_run_bench_false sa hsb]
      simp [setupRuns, hsb, List.replicate_succ]

theorem benchLoop_teardownRuns :
    ∀ (bs : List String) (sa ta : Assistant), sa.kind = .Setup → ta.kind = .Teardown →
      teardownRuns (benchLoop (some sa) (some ta) bs) =
        (if ta.bench then benchedOnce bs.length else List.replicate bs.length .Plain) := by
  intro bs
  induction bs with
  | nil =>
    intro sa ta hs ht
    cases htb : ta.bench <;> simp [benchLoop, teardownRuns, benchedOnce]
  | cons b bs ih =>
    intro sa ta hs ht
    have hrec := ih sa.run.2 ta.run.2 ((assistant_run_kind sa).trans hs)
      ((assistant_run_kind ta).trans ht)
    simp only [benchLoop, runAssist, hs, ht]
    rw [teardownRuns_append, teardownRuns_append, hrec]
    cases htb : ta.bench with
    | true =>
      rw [assistant_run_bench_true ta htb, assistant_run_teardown_clears ta ht htb]
      simp [teardownRuns, benchedOnce]
    | false =>
      rw [assistant_run_bench_false ta htb]
      simp [teardownRuns, htb, List.replicate_succ]

/-- C3 amended: `setup` and `teardown` assistants configured with
`bench = false` always run plain; configured with `bench = true`, the FIRST
invocation runs benched (measured under callgrind) — `Assistant::run` clears
the flag but still takes the `run_bench` path that time — and every
subsequent invocation runs plain.  (The `before`/`after` slots are arbitrary
assistants of non-setup, non-teardown kind.) -/
theorem assistant_hooks_trace (sn tn : String) (sb tb : Bool) (bs : List String)
    (before after : Option Assistant)
    (hb : ∀ x, before = some x →
      x.kind ≠ AssistantKind.Setup ∧ x.kind ≠ AssistantKind.Teardown)
    (ha : ∀ x, after = some x →
      x.kind ≠ AssistantKind.Setup ∧ x.kind ≠ AssistantKind.Teardown) :
    setupRuns (binBenchRun ⟨before, after, some ⟨sn, .Setup, sb⟩, some ⟨tn, .Teardown, tb⟩⟩
        bs) =
      (if sb then benchedOnce bs.length else List.replicate bs.length .Plain) ∧
    teardownRuns (binBenchRun ⟨before, after, some ⟨sn, .Setup, sb⟩, some ⟨tn, .Teardown, tb⟩⟩
        bs) =
      (if tb then benchedOnce bs.length else List.replicate bs.length .Plain) := by
  unfold binBenchRun
  dsimp only
  constructor
  · rw [setupRuns_append, setupRuns_append]
    rw [setupRuns_runAssist_other before (fun x hx => (hb x hx).1)]
    rw [setupRuns_runAssist_other after (fun x hx => (ha x hx).1)]
    rw [benchLoop_setupRuns bs ⟨sn, .Setup, sb⟩ ⟨tn, .Teardown, tb⟩ rfl rfl]
    simp
  · rw [teardownRuns_append, teardownRuns_append]
    rw [teardownRuns_runAssist_other before (fun x hx => (hb x hx).2)]
    rw [teardownRuns_runAssist_other after (fun x hx => (ha x hx).2)]
    rw [benchLoop_teardownRuns bs ⟨sn, .Setup, sb⟩ ⟨tn, .Teardown, tb⟩ rfl rfl]
    simp

/-- Witness for C3 (amended): with two benchmarks, a `bench = true` setup is
benched exactly once and a `bench = false` teardown always runs plain. -/
theorem assistant_hooks_trace_witness :
    setupRuns (binBenchRun ⟨none, none, some ⟨"s", .Setup, true⟩, some ⟨"t", .Teardown, false⟩⟩
        ["a", "b"]) = [.Benched, .Plain] ∧
    teardownRuns (binBenchRun ⟨none, none, some ⟨"s", .Setup, true⟩,
        some ⟨"t", .Teardown, false⟩⟩ ["a", "b"]) = [.Plain, .Plain] := by
  have h := assistant_hooks_trace "s" "t" true false ["a", "b"] none none
    (fun x hx => nomatch hx) (fun x hx => nomatch hx)
  exact ⟨h.1.trans (by decide), h.2.trans (by decide)⟩

/-! ## Claim C10 — logfile summaries sorted by pid

Embedding of `src/iai-callgrind-runner/src/runner/tool/logfile_parser.rs`.
The four regexes of the source share the prelude
`^\s*(==|--)([0-9:.]+\s+)?(?<pid>[0-9]+)(==|--)`; `matchLogMark` is its
deterministic match (backtracking cannot produce a different parse: the
optional timestamp group participates exactly when the character-class run
is followed by whitespace). -/

/-- Longest prefix of characters satisfying `p`, with the remainder. -/
def spanP (p : Char → Bool) : List Char → List Char × List Char
  | [] => ([], [])
  | c :: cs =>
    if p c then
      let r := spanP p cs
      (c :: r.1, r.2)
    else ([], c :: cs)

/-- The `(==|--)` marker. -/
def dropMarker : List Char → Option (List Char)
  | '=' :: '=' :: r => some r
  | '-' :: '-' :: r => some r
  | _ => none

/-- The `[0-9:.]` character class of the optional timestamp group. -/
def tsChar (c : Char) : Bool :=
  c.isDigit || c = ':' || c = '.'

/-- Match `^\s*(==|--)([0-9:.]+\s+)?(?<pid>[0-9]+)(==|--)`, returning the pid
value and the text after the closing marker. -/
def matchLogMark (cs : List Char) : Option (Nat × List Char) :=
  let cs := (spanP asciiWs cs).2
  match dropMarker cs with
  | none => none
  | some r1 =>
    let t := spanP tsChar r1
    if t.1.isEmpty then none
    else
      let w := spanP asciiWs t.2
      if w.1.isEmpty then
        -- no timestamp group: the class run itself is the pid
        if t.1.all Char.isDigit then
          match dropMarker t.2 with
          | some rest => some (digitsVal t.1, rest)
          | none => none
        else none
      else
        -- timestamp group, then the pid digits, then the marker
        let d := spanP Char.isDigit w.2
        if d.1.isEmpty then none
        else
          match dropMarker d.2 with
          | some rest => some (digitsVal d.1, rest)
          | none => none

/-- `EMPTY_LINE_RE`: the marker prelude followed only by whitespace. -/
def isEmptyLineRe (line : String) : Bool :=
  match matchLogMark line.data with
  | some (_, rest) => rest.all asciiWs
  | none => false

/-- `EXTRACT_FIELDS_RE`: the marker prelude, then `key : value` split at the
first colon (key trimmed, value with leading whitespace stripped). -/
def extractFields (line : String) : Option (String × String) :=
  match matchLogMark line.data with
  | none => none
  | some (_, rest) =>
    match spanP (fun c => c != ':') rest with
    | (before, ':' :: after) =>
      some (String.mk (trimAscii before), String.mk (after.dropWhile asciiWs))
    | _ => none

/-- `STRIP_PREFIX_RE`: the marker prelude followed by one literal space; the
rest of the line is returned. -/
def stripLogMark (line : String) : Option String :=
  match matchLogMark line.data with
  | none => none
  | some (_, rest) =>
    match rest with
    | ' ' :: r => some (String.mk r)
    | _ => none

/-- Rust `str::to_ascii_lowercase` / `eq_ignore_ascii_case` support. -/
def asciiLower (s : String) : String :=
  String.mk (s.data.map fun c =>
    if 'A' ≤ c ∧ c ≤ 'Z' then Char.ofNat (c.toNat + 32) else c)

/-- Modelled from the spec: `util::make_relative` (applied to the command and
the log path) is not among the provided source files.  The spec only shows
paths displayed relative to the project root, so it is modelled as stripping
the root directory from the front of the path.  It carries no weight for
C10: only the numeric `pid` field participates in the ordering. -/
def makeRelative (root_dir p : String) : String :=
  if listStartsWith p.data (root_dir.data ++ ['/']) then
    String.mk (p.data.drop (root_dir.data.length + 1))
  else p

/-- The per-process summary of `logfile_parser.rs` (lines 36-44).  `pid` is
parsed from decimal digits via `parse::<i32>()`, hence non-negative. -/
structure LogfileSummary where
  command : String
  pid : Nat
  fields : List (String × String)
  body : List String
  error_summary : Option String
  log_path : String
deriving DecidableEq, Repr

/-- The parser states (`logfile_parser.rs` lines 46-51). -/
inductive HeaderState where
  | Header : HeaderState
  | HeaderSpace : HeaderState
  | Body : HeaderState
deriving DecidableEq, Repr

/-- Accumulator of `parse_single`'s line loop. -/
structure SingleLogState where
  state : HeaderState
  command : Option String
  fields : List (String × String)
  body : List String
  error_summary : Option String
deriving DecidableEq, Repr

/-- The body-line handling shared by the `HeaderSpace` and `Body` arms:
record an `Error summary` field, otherwise push the (marker-stripped)
line. -/
def bodyStep (st : SingleLogState) (line : String) : SingleLogState :=
  match extractFields line with
  | some (key, value) =>
    if asciiLower key = "error summary" then { st with error_summary := some value }
    else
      match stripLogMark line with
      | some rest => { st with body := st.body ++ [rest] }
      | none => { st with body := st.body ++ [line] }
  | none =>
    match stripLogMark line with
    | some rest => { st with body := st.body ++ [rest] }
    | none => { st with body := st.body ++ [line] }

/-- One iteration of the `for line in iter` loop of `parse_single`
(`logfile_parser.rs` lines 80-119). -/
def parseSingleStep (root_dir : String) (st : SingleLogState) (line : String) :
    SingleLogState :=
  match st.state with
  | .Header =>
    if !(isEmptyLineRe line) then
      match extractFields line with
      | some (key, value) =>
        if asciiLower key = "command" then
          { st with command := some (makeRelative root_dir value) }
        else if asciiLower key = "parent pid" then
          { st with fields := st.fields ++ [(key, value)] }
        else st
      | none => st
    else { st with state := .HeaderSpace }
  | .HeaderSpace =>
    if isEmptyLineRe line then st
    else bodyStep { st with state := .Body } line
  | .Body => bodyStep st line

/-- The trailing-blank-line pop after the loop (`logfile_parser.rs` lines
121-127). -/
def dropTrailingBlank (body : List String) : List String :=
  (body.reverse.dropWhile isBlankLine).reverse

/-- Embedding of `LogfileParser::parse_single` (`logfile_parser.rs` lines
54-137): skip leading blank lines, extract the pid from the first line,
run the header/body state machine, and require a `Command:` field. -/
def parse_single (root_dir path : String) (lines : List String) : Option LogfileSummary :=
  match lines.dropWhile isBlankLine with
  | [] => none
  | first :: rest =>
    match matchLogMark (trimAscii first.data) with
    | none => none
    | some (pidv, _) =>
      if pidv > 2147483647 then none
      else
        let fin := rest.foldl (parseSingleStep root_dir) ⟨.Header, none, [], [], none⟩
        match fin.command with
        | none => none
        | some command =>
          some { command := command
                 pid := pidv
                 fields := fin.fields
                 body := dropTrailingBlank fin.body
                 error_summary := fin.error_summary
                 log_path := makeRelative root_dir path }

/-- Stable insertion used to model `summaries.sort_by_key(|s| s.pid)`: the
new element goes after every element with a pid not exceeding its own. -/
def insertByPid (s : LogfileSummary) : List LogfileSummary → List LogfileSummary
  | [] => [s]
  | h :: t => if h.pid ≤ s.pid then h :: insertByPid s t else s :: h :: t

/-- The stable sort by pid (`sort_by_key` is a stable sort; any stable sort
computes the same function). -/
def sortByPid (l : List LogfileSummary) : List LogfileSummary :=
  l.foldl (fun acc s => insertByPid s acc) []

/-- Embedding of `LogfileParser::parse` (`logfile_parser.rs` lines 140-158):
parse every discovered log file (a file is its path with its lines; the
enumeration order is arbitrary), propagate the first error, and sort the
summaries by pid. -/
def LogfileParser.parse (root_dir : String) (files : List (String × List String)) :
    Option (List LogfileSummary) :=
  match files.mapM (fun f => parse_single root_dir f.1 f.2) with
  | some summaries => some (sortByPid summaries)
  | none => none

theorem insertByPid_perm (s : LogfileSummary) :
    ∀ l, (insertByPid s l).Perm (s :: l) := by
  intro l
  induction l with
  | nil => exact List.Perm.refl _
  | cons h t ih =>
    unfold insertByPid
    by_cases hle : h.pid ≤ s.pid
    · rw [if_pos hle]
      exact (List.Perm.cons h ih).trans (List.Perm.swap s h t)
    · rw [if_neg hle]

theorem insertByPid_sorted (s : LogfileSummary) :
    ∀ l, l.Pairwise (fun a b => a.pid ≤ b.pid) →
      (insertByPid s l).Pairwise (fun a b => a.pid ≤ b.pid) := by
  intro l
  induction l with
  | nil =>
    intro _
    show List.Pairwise (fun a b => a.pid ≤ b.pid) [s]
    simp
  | cons h t ih =>
    intro hp
    obtain ⟨hall, ht⟩ := List.pairwise_cons.mp hp
    unfold insertByPid
    by_cases hle : h.pid ≤ s.pid
    · rw [if_pos hle]
      refine List.pairwise_cons.mpr ⟨?_, ih ht⟩
      intro x hx
      have hx' := (insertByPid_perm s t).mem_iff.mp hx
      cases List.mem_cons.mp hx' with
      | inl he => exact he.symm ▸ hle
      | inr hm => exact hall x hm
    · rw [if_neg hle]
      have hsh : s.pid ≤ h.pid := Nat.le_of_lt (Nat.lt_of_not_le hle)
      refine List.pairwise_cons.mpr ⟨?_, hp⟩
      intro x hx
      cases List.mem_cons.mp hx with
      | inl he => exact he.symm ▸ hsh
      | inr hm => exact Nat.le_trans hsh (hall x hm)

theorem sortByPid_foldl :
    ∀ (l acc : List LogfileSummary), acc.Pairwise (fun a b => a.pid ≤ b.pid) →
      (l.foldl (fun acc s => insertByPid s acc) acc).Pairwise (fun a b => a.pid ≤ b.pid) ∧
      (l.foldl (fun acc s => insertByPid s acc) acc).Perm (l ++ acc) := by
  intro l
  induction l with
  | nil => intro acc h; exact ⟨h, by simp⟩
  | cons s t ih =>
    intro acc h
    rw [List.foldl_cons]
    obtain ⟨h1, h2⟩ := ih (insertByPid s acc) (insertByPid_sorted s acc h)
    refine ⟨h1, h2.trans ?_⟩
    have hmid : (t ++ (s :: acc)).Perm (s :: (t ++ acc)) := List.perm_middle
    exact (List.Perm.append_left t (insertByPid_perm s acc)).trans hmid

theorem sortByPid_sorted (l : List LogfileSummary) :
    (sortByPid l).Pairwise (fun a b => a.pid ≤ b.pid) :=
  (sortByPid_foldl l [] (by simp)).1

theorem sortByPid_perm (l : List LogfileSummary) : (sortByPid l).Perm l := by
  have h := (sortByPid_foldl l [] (by simp)).2
  simpa using h

/-- `mapM` over a permuted file list succeeds with a permuted result. -/
theorem mapM_perm_option {α β : Type} (g : α → Option β) :
    ∀ {l1 l2 : List α}, l1.Perm l2 →
      ∀ {r1 : List β}, l1.mapM g = some r1 →
        ∃ r2, l2.mapM g = some r2 ∧ r1.Perm r2 := by
  intro l1 l2 hperm
  induction hperm with
  | nil => intro r1 h; exact ⟨r1, h, List.Perm.refl _⟩
  | @cons x l₁ l₂ hp ih =>
    intro r1 h
    rw [List.mapM_cons] at h
    cases hgx : g x with
    | none => rw [hgx] at h; exact absurd h (by simp)
    | some b =>
      rw [hgx] at h
      cases hmt : List.mapM g l₁ with
      | none => rw [hmt] at h; exact absurd h (by simp)
      | some bs =>
        rw [hmt] at h
        obtain ⟨bs2, h2, p2⟩ := ih hmt
        refine ⟨b :: bs2, ?_, ?_⟩
        · rw [List.mapM_cons, hgx, h2]
          rfl
        · have : r1 = b :: bs := by
            simpa using h.symm
          rw [this]
          exact List.Perm.cons b p2
  | swap x y l =>
    intro r1 h
    rw [List.mapM_cons] at h
    cases hgy : g y with
    | none => rw [hgy] at h; exact absurd h (by simp)
    | some by_ =>
      rw [hgy] at h
      rw [List.mapM_cons] at h
      cases hgx : g x with
      | none => rw [hgx] at h; exact absurd h (by simp)
      | some bx =>
        rw [hgx] at h
        cases hml : List.mapM g l with
        | none => rw [hml] at h; exact absurd h (by simp)
        | some bl =>
          rw [hml] at h
          have hr : r1 = by_ :: bx :: bl := by simpa using h.symm
          refine ⟨bx :: by_ :: bl, ?_, ?_⟩
          · rw [List.mapM_cons, hgx, List.mapM_cons, hgy, hml]
            rfl
          · rw [hr]
            exact List.Perm.swap bx by_ bl
  | trans h12 h23 ih12 ih23 =>
    intro r1 h
    obtain ⟨r2, h2, p2⟩ := ih12 h
    obtain ⟨r3, h3, p3⟩ := ih23 h2
    exact ⟨r3, h3, p2.trans p3⟩

/-- C10: `LogfileParser::parse` returns the per-process summaries sorted in
ascending order of their parsed pid: whenever it succeeds the output is
pairwise sorted by `pid` and is a permutation of the individually parsed
summaries; and enumerating the same files in any other order yields a
permutation of the same summaries (again sorted). -/
theorem logfile_parse_sorted_by_pid (root_dir : String)
    (files : List (String × List String)) (out : List LogfileSummary)
    (h : LogfileParser.parse root_dir files = some out) :
    out.Pairwise (fun a b => a.pid ≤ b.pid) ∧
    (∀ summaries, files.mapM (fun f => parse_single root_dir f.1 f.2) = some summaries →
      out.Perm summaries) ∧
    (∀ (files' : List (String × List String)) (out' : List LogfileSummary),
      files.Perm files' → LogfileParser.parse root_dir files' = some out' →
      out.Perm out') := by
  unfold LogfileParser.parse at h
  cases hm : files.mapM (fun f => parse_single root_dir f.1 f.2) with
  | none => rw [hm] at h; exact absurd h (by simp)
  | some summaries =>
    rw [hm] at h
    have hout : sortByPid summaries = out := by simpa using h
    refine ⟨?_, ?_, ?_⟩
    · rw [← hout]; exact sortByPid_sorted summaries
    · intro s2 hs2
      have : s2 = summaries := by simpa using hs2.symm
      rw [this, ← hout]
      exact sortByPid_perm summaries
    · intro files' out' hpf h'
      unfold LogfileParser.parse at h'
      obtain ⟨r2, hr2, pr2⟩ := mapM_perm_option (fun f => parse_single root_dir f.1 f.2) hpf hm
      rw [hr2] at h'
      have hout' : sortByPid r2 = out' := by simpa using h'
      rw [← hout, ← hout']
      exact ((sortByPid_perm summaries).trans pr2).trans (sortByPid_perm r2).symm

/-- Witness for C10: two concrete log files enumerated with the larger pid
first parse to summaries sorted ascending by pid. -/
theorem logfile_parse_sorted_by_pid_witness :
    ((LogfileParser.parse ""
        [("a.log", ["==200== Memcheck, a memory error detector",
                    "==200== Command: target/bench-a"]),
         ("b.log", ["==100== Memcheck, a memory error detector",
                    "==100== Command: target/bench-b"])]).getD []).Pairwise
      (fun a b => a.pid ≤ b.pid) :=
  (logfile_parse_sorted_by_pid ""
    [("a.log", ["==200== Memcheck, a memory error detector",
                "==200== Command: target/bench-a"]),
     ("b.log", ["==100== Memcheck, a memory error detector",
                "==100== Command: target/bench-b"])]
    _ rfl).1
